import Mathlib

/-!
Verification of the xpid XH-pi interaction-detection engine.

The Python source (src/xpid/geometry.py, core.py, residue_ss.py, config.py)
is shallowly embedded below.  External collaborators (the gemmi neighbor
search and the numpy SVD plane fit) are modelled as oracle parameters,
since their code is not part of this repository.
-/

set_option autoImplicit false

noncomputable section

namespace Xpid

open Classical

/-- 3D point / vector with real coordinates. -/
structure Vec3 where
  x : ℝ
  y : ℝ
  z : ℝ

def Vec3.sub (a b : Vec3) : Vec3 := ⟨a.x - b.x, a.y - b.y, a.z - b.z⟩

def Vec3.add (a b : Vec3) : Vec3 := ⟨a.x + b.x, a.y + b.y, a.z + b.z⟩

def Vec3.smul (t : ℝ) (a : Vec3) : Vec3 := ⟨t * a.x, t * a.y, t * a.z⟩

instance : Sub Vec3 := ⟨Vec3.sub⟩

instance : Add Vec3 := ⟨Vec3.add⟩

instance : SMul ℝ Vec3 := ⟨Vec3.smul⟩

/-- Euclidean dot product. -/
def Vec3.dot (a b : Vec3) : ℝ := a.x * b.x + a.y * b.y + a.z * b.z

/-- `np.linalg.norm` of a 3-vector. -/
def Vec3.norm (a : Vec3) : ℝ := Real.sqrt (Vec3.dot a a)

/-- `np.clip(t, -1.0, 1.0)`. -/
def clip (t : ℝ) : ℝ := min (max t (-1)) 1

/-- `np.degrees`: radians to degrees. -/
def deg (r : ℝ) : ℝ := r * 180 / Real.pi

/-- geometry.calculate_distance. -/
def calculate_distance (pos1 pos2 : Vec3) : ℝ := Vec3.norm (pos1 - pos2)

/-- geometry.calculate_xpcn_angle: angle between the X-to-center vector and
the ring normal, folded to [0, 90]; None on a zero-length vector. -/
def calculate_xpcn_angle (x_pos pi_center pi_normal : Vec3) : Option ℝ :=
  let v_x_pi := pi_center - x_pos
  let norm_v := Vec3.norm v_x_pi
  let norm_n := Vec3.norm pi_normal
  if norm_v = 0 ∨ norm_n = 0 then none
  else
    let cos_theta := clip (Vec3.dot v_x_pi pi_normal / (norm_v * norm_n))
    let angle := deg (Real.arccos cos_theta)
    if angle > 90 then some (180 - angle) else some angle

/-- geometry.calculate_xh_picenter_angle: angle between H-X and H-center
vectors, not folded; None on a zero-length vector. -/
def calculate_xh_picenter_angle (pi_center x_pos h_pos : Vec3) : Option ℝ :=
  let v_hx := h_pos - x_pos
  let v_hc := h_pos - pi_center
  let norm_hx := Vec3.norm v_hx
  let norm_hc := Vec3.norm v_hc
  if norm_hx = 0 ∨ norm_hc = 0 then none
  else some (deg (Real.arccos (clip (Vec3.dot v_hx v_hc / (norm_hx * norm_hc)))))

/-- geometry.calculate_hudson_theta: angle between the ring normal and the
X-H vector, gated by the hydrogen pointing toward the ring, folded to
[0, 90]. -/
def calculate_hudson_theta (pi_center x_pos h_pos normal : Vec3) : Option ℝ :=
  let v_x_pi := pi_center - x_pos
  let v_xh := h_pos - x_pos
  let norm_xpi := Vec3.norm v_x_pi
  if norm_xpi = 0 then none
  else
    let proj_len := Vec3.dot v_xh v_x_pi / norm_xpi
    if proj_len > 0 then
      let norm_n := Vec3.norm normal
      let norm_xh := Vec3.norm v_xh
      if norm_n = 0 ∨ norm_xh = 0 then none
      else
        let angle := deg (Real.arccos (clip (Vec3.dot normal v_xh / (norm_n * norm_xh))))
        if angle ≥ 90 then some (180 - angle) else some angle
    else none

/-- geometry.calculate_projection_dist: distance from the ring center to the
projection of X onto the ring plane; None if the normal is the zero vector. -/
def calculate_projection_dist (normal pi_center x_pos : Vec3) : Option ℝ :=
  let numerator := Vec3.dot normal (pi_center - x_pos)
  let denominator := Vec3.dot normal normal
  if denominator = 0 then none
  else
    let t := numerator / denominator
    let projection_point := x_pos + t • normal
    some (Vec3.norm (projection_point - pi_center))

lemma calculate_xpcn_angle_eq (x_pos pi_center pi_normal : Vec3) :
    calculate_xpcn_angle x_pos pi_center pi_normal =
      if Vec3.norm (pi_center - x_pos) = 0 ∨ Vec3.norm pi_normal = 0 then none
      else
        if deg (Real.arccos (clip (Vec3.dot (pi_center - x_pos) pi_normal /
              (Vec3.norm (pi_center - x_pos) * Vec3.norm pi_normal)))) > 90 then
          some (180 - deg (Real.arccos (clip (Vec3.dot (pi_center - x_pos) pi_normal /
              (Vec3.norm (pi_center - x_pos) * Vec3.norm pi_normal)))))
        else
          some (deg (Real.arccos (clip (Vec3.dot (pi_center - x_pos) pi_normal /
              (Vec3.norm (pi_center - x_pos) * Vec3.norm pi_normal))))) := rfl

lemma calculate_xh_picenter_angle_eq (pi_center x_pos h_pos : Vec3) :
    calculate_xh_picenter_angle pi_center x_pos h_pos =
      if Vec3.norm (h_pos - x_pos) = 0 ∨ Vec3.norm (h_pos - pi_center) = 0 then none
      else
        some (deg (Real.arccos (clip (Vec3.dot (h_pos - x_pos) (h_pos - pi_center) /
          (Vec3.norm (h_pos - x_pos) * Vec3.norm (h_pos - pi_center)))))) := rfl

lemma calculate_hudson_theta_eq (pi_center x_pos h_pos normal : Vec3) :
    calculate_hudson_theta pi_center x_pos h_pos normal =
      if Vec3.norm (pi_center - x_pos) = 0 then none
      else
        if Vec3.dot (h_pos - x_pos) (pi_center - x_pos) / Vec3.norm (pi_center - x_pos) > 0 then
          if Vec3.norm normal = 0 ∨ Vec3.norm (h_pos - x_pos) = 0 then none
          else
            if deg (Real.arccos (clip (Vec3.dot normal (h_pos - x_pos) /
                  (Vec3.norm normal * Vec3.norm (h_pos - x_pos))))) ≥ 90 then
              some (180 - deg (Real.arccos (clip (Vec3.dot normal (h_pos - x_pos) /
                  (Vec3.norm normal * Vec3.norm (h_pos - x_pos))))))
            else
              some (deg (Real.arccos (clip (Vec3.dot normal (h_pos - x_pos) /
                  (Vec3.norm normal * Vec3.norm (h_pos - x_pos))))))
        else none := rfl

lemma calculate_projection_dist_eq (normal pi_center x_pos : Vec3) :
    calculate_projection_dist normal pi_center x_pos =
      if Vec3.dot normal normal = 0 then none
      else
        some (Vec3.norm
          (x_pos + (Vec3.dot normal (pi_center - x_pos) / Vec3.dot normal normal) • normal
            - pi_center)) := rfl

/-! ## config.py -/

/-- config.RING_ATOMS: required ring atom names for the main pi systems. -/
def RING_ATOMS (res : String) : Option (List String) :=
  if res = "TRP" then some ["CD2", "CE2", "CE3", "CZ2", "CZ3", "CH2"]
  else if res = "TYR" then some ["CD1", "CD2", "CE1", "CE2", "CZ", "CG"]
  else if res = "PHE" then some ["CD1", "CD2", "CE1", "CE2", "CZ", "CG"]
  else if res = "HIS" then some ["CE1", "ND1", "NE2", "CG", "CD2"]
  else none

/-- config.TRP_A_ATOMS: the tryptophan five-membered ring. -/
def TRP_A_ATOMS (res : String) : Option (List String) :=
  if res = "TRP" then some ["CD1", "CD2", "NE1", "CG", "CE2"] else none

/-- config.TARGET_ELEMENTS_X: allowed donor heavy-atom elements. -/
def TARGET_ELEMENTS_X : List String := ["C", "N", "O", "S"]

/-- config.TARGET_ELEMENTS_H: hydrogen and deuterium. -/
def TARGET_ELEMENTS_H : List String := ["H", "D"]

def DIST_SEARCH_LIMIT : ℝ := 6.0

def DIST_PLEVIN_MAX : ℝ := 4.3

def DIST_HUDSON_MAX : ℝ := 4.5

def DIST_CUTOFF_H : ℝ := 1.3

/-! ## Data model (gemmi structure hierarchy, read-only to the core) -/

structure Atom where
  name : String
  element : String
  altloc : Char
  pos : Vec3
  b_iso : ℝ

structure Residue where
  name : String
  seqid : Int
  atoms : List Atom

structure Chain where
  name : String
  residues : List Residue

/-- A model; `name` is optional because some structure formats omit it
(the code reads it with `getattr(m, 'name', fallback)`). -/
structure Model where
  name : Option String
  chains : List Chain

/-- A helix record; residue ids are optional, a missing id makes the
record malformed and the builder skips it. -/
structure Helix where
  chain_name : String
  start_seq : Option Int
  end_seq : Option Int
  pdb_helix_class : Int

structure Strand where
  chain_name : String
  start_seq : Option Int
  end_seq : Option Int

structure Sheet where
  strands : List Strand

structure Structure where
  models : List Model
  resolution : ℝ
  helices : List Helix
  sheets : List Sheet

/-- A chain-residue-atom triple as returned by `mark.to_cra(model)`. -/
structure CRA where
  chain_name : String
  res_name : String
  res_seq : Int
  atom : Atom

/-- The neighbor-search oracle: query position, altloc, radius. -/
abbrev NS := Vec3 → Char → ℝ → List CRA

/-! ## residue_ss.py: secondary-structure indexer -/

structure SSRegion where
  start_num : Int
  end_num : Int
  ss_type : String
  uid : Int

/-- The index maps a chain name to its region list (a chain absent from the
python dict is modelled by the empty list, which answers queries
identically). -/
abbrev SSIndex := String → List SSRegion

def add_range (idx : SSIndex) (chain_name : String) (r : SSRegion) : SSIndex :=
  fun c => if c = chain_name then idx c ++ [r] else idx c

/-- Helix class code: 5 gives G, 3 gives I, anything else H. -/
def helixCode (h : Helix) : String :=
  if h.pdb_helix_class = 5 then "G" else if h.pdb_helix_class = 3 then "I" else "H"

def build_helices : List Helix → SSIndex → Int → SSIndex × Int
  | [], idx, k => (idx, k)
  | h :: rest, idx, k =>
    match h.start_seq, h.end_seq with
    | some s_, some e_ =>
        build_helices rest (add_range idx h.chain_name ⟨s_, e_, helixCode h, k⟩) (k + 1)
    | _, _ => build_helices rest idx k

def build_strands : List Strand → SSIndex → Int → SSIndex × Int
  | [], idx, k => (idx, k)
  | st :: rest, idx, k =>
    match st.start_seq, st.end_seq with
    | some s_, some e_ =>
        build_strands rest (add_range idx st.chain_name ⟨s_, e_, "E", k⟩) (k + 1)
    | _, _ => build_strands rest idx k

/-- residue_ss.build_index: helices first, then all strands of all sheets,
with a single region-uid counter starting at 1. -/
def build_index (s : Structure) : SSIndex :=
  let p1 := build_helices s.helices (fun _ => []) 1
  (build_strands (s.sheets.flatMap Sheet.strands) p1.1 p1.2).1

/-- The linear scan of residue_ss.get_info. -/
def scan_regions : List SSRegion → Int → String × Int
  | [], _ => ("C", -1)
  | r :: rest, n =>
    if r.start_num ≤ n ∧ n ≤ r.end_num then (r.ss_type, r.uid) else scan_regions rest n

/-- residue_ss.get_info. -/
def get_info (chain_name : String) (res_seq_num : Int) (idx : SSIndex) : String × Int :=
  scan_regions (idx chain_name) res_seq_num

/-! ## core.py -/

/-- Which of the two atom dictionaries the residue matched. -/
inductive Mode
  | main
  | trpA
deriving DecidableEq

/-- An output record, with the fields of the python result dict.  Numeric
display fields are rounded exactly as in the source. -/
structure Hit where
  pdb : String
  model : String
  resolution : ℝ
  pi_chain : String
  pi_res : String
  pi_id : Int
  X_chain : String
  X_res : String
  X_id : Int
  X_atom : String
  H_atom : String
  dist_X_Pi : ℝ
  is_plevin : ℕ
  is_hudson : ℕ
  remark : String
  pi_ss_type : String
  pi_ss_id : Int
  X_ss_type : String
  X_ss_id : Int
  pi_avg_b : ℝ
  pi_center_x : ℝ
  pi_center_y : ℝ
  pi_center_z : ℝ
  X_b : ℝ
  X_xyz_x : ℝ
  X_xyz_y : ℝ
  X_xyz_z : ℝ
  seq_sep : Int
  theta : ℝ
  angle_XH_Pi : ℝ
  angle_XPCN : ℝ
  proj_dist : Option ℝ

/-- `round(x, 3)`. -/
def round3 (x : ℝ) : ℝ := (round (x * 1000) : Int) / 1000

/-- `round(x, 2)`. -/
def round2 (x : ℝ) : ℝ := (round (x * 100) : Int) / 100

/-- A python truthy allow-list rejects a value not contained in it; `None`
and the empty list are falsy and reject nothing. -/
def rejectedBy (f : Option (List String)) (s : String) : Prop :=
  match f with
  | none => False
  | some l => l ≠ [] ∧ s ∉ l

/-- Componentwise mean of a point list (`np.mean(positions, axis=0)`). -/
def centroid (positions : List Vec3) : Vec3 :=
  ⟨(positions.map Vec3.x).sum / positions.length,
   (positions.map Vec3.y).sum / positions.length,
   (positions.map Vec3.z).sum / positions.length⟩

/-- core lines 133-137: the Plevin flag. -/
def plevinFlag (dist_x_pi xh_pi_angle xpcn_angle : ℝ) : ℕ :=
  if dist_x_pi < DIST_PLEVIN_MAX ∧ xh_pi_angle > 120.0 ∧ xpcn_angle < 25.0 then 1 else 0

/-- core lines 139-142: the context-dependent projection threshold. -/
def projThreshold (mode : Mode) (res_name : String) : Option ℝ :=
  if mode = Mode.trpA then some 1.6
  else if res_name = "HIS" then some 1.6
  else if res_name = "TRP" ∨ res_name = "TYR" ∨ res_name = "PHE" then some 2.0
  else none

/-- core lines 144-152: the Hudson flag together with the recorded
projection distance. -/
def hudsonEval (mode : Mode) (res_name : String) (theta dist_x_pi : ℝ)
    (pi_normal pi_center x_pos : Vec3) : ℕ × Option ℝ :=
  match projThreshold mode res_name with
  | none => (0, none)
  | some thr =>
    match calculate_projection_dist pi_normal pi_center x_pos with
    | none => (0, none)
    | some pd =>
      (if theta ≤ 40.0 ∧ dist_x_pi ≤ DIST_HUDSON_MAX ∧ pd ≤ thr then 1 else 0, some pd)

/-- core lines 118-217: evaluation of one (X, H) candidate pair, from the
element check through record construction. -/
def evalPair (pdb_name : String) (resolution : ℝ) (model_id : String)
    (chain_name : String) (residue : Residue) (mode : Mode) (ss_index : SSIndex)
    (pi_center pi_normal : Vec3) (pi_b_mean : ℝ)
    (x_cra : CRA) (dist_x_pi : ℝ) (h_cra : CRA) : Option Hit :=
  if h_cra.atom.element ∉ TARGET_ELEMENTS_H then none
  else
    let x_pos := x_cra.atom.pos
    let h_pos := h_cra.atom.pos
    match calculate_xpcn_angle x_pos pi_center pi_normal,
          calculate_xh_picenter_angle pi_center x_pos h_pos,
          calculate_hudson_theta pi_center x_pos h_pos pi_normal with
    | some xpcn_angle, some xh_pi_angle, some theta =>
      let plevin := plevinFlag dist_x_pi xh_pi_angle xpcn_angle
      let hp := hudsonEval mode residue.name theta dist_x_pi pi_normal pi_center x_pos
      if plevin = 0 ∧ hp.1 = 0 then none
      else
        let pi_ss := get_info chain_name residue.seqid ss_index
        let x_ss := get_info x_cra.chain_name x_cra.res_seq ss_index
        let seq_sep : Int :=
          if chain_name = x_cra.chain_name then |residue.seqid - x_cra.res_seq| else -1
        let remark :=
          if residue.name = "TRP" then (if mode = Mode.main then "6-ring" else "5-ring")
          else ""
        some
          { pdb := pdb_name
            model := model_id
            resolution := resolution
            pi_chain := chain_name
            pi_res := residue.name
            pi_id := residue.seqid
            X_chain := x_cra.chain_name
            X_res := x_cra.res_name
            X_id := x_cra.res_seq
            X_atom := x_cra.atom.name
            H_atom := h_cra.atom.name
            dist_X_Pi := round3 dist_x_pi
            is_plevin := plevin
            is_hudson := hp.1
            remark := remark
            pi_ss_type := pi_ss.1
            pi_ss_id := pi_ss.2
            X_ss_type := x_ss.1
            X_ss_id := x_ss.2
            pi_avg_b := round2 pi_b_mean
            pi_center_x := round3 pi_center.x
            pi_center_y := round3 pi_center.y
            pi_center_z := round3 pi_center.z
            X_b := round2 x_cra.atom.b_iso
            X_xyz_x := round3 x_pos.x
            X_xyz_y := round3 x_pos.y
            X_xyz_z := round3 x_pos.z
            seq_sep := seq_sep
            theta := round2 theta
            angle_XH_Pi := round2 xh_pi_angle
            angle_XPCN := round2 xpcn_angle
            proj_dist := Option.map round3 hp.2 }
    | _, _, _ => none

/-- core lines 116-118: the hydrogen search around one surviving X atom. -/
def processHs (ns : NS) (pdb_name : String) (resolution : ℝ) (model_id : String)
    (chain_name : String) (residue : Residue) (mode : Mode) (ss_index : SSIndex)
    (pi_center pi_normal : Vec3) (pi_b_mean : ℝ)
    (x_cra : CRA) (dist_x_pi : ℝ) : List Hit :=
  let h_candidates := ns x_cra.atom.pos x_cra.atom.altloc DIST_CUTOFF_H
  h_candidates.filterMap
    (evalPair pdb_name resolution model_id chain_name residue mode ss_index
      pi_center pi_normal pi_b_mean x_cra dist_x_pi)

/-- core lines 99-116: element check, allow-list filters and the Hudson
distance gate for one X candidate. -/
def processX (ns : NS) (pdb_name : String) (resolution : ℝ) (model_id : String)
    (chain_name : String) (residue : Residue) (mode : Mode) (ss_index : SSIndex)
    (filter_donor filter_donor_atom : Option (List String))
    (pi_center pi_normal : Vec3) (pi_b_mean : ℝ) (x_cra : CRA) : List Hit :=
  if x_cra.atom.element ∉ TARGET_ELEMENTS_X then []
  else if rejectedBy filter_donor x_cra.res_name then []
  else if rejectedBy filter_donor_atom x_cra.atom.element then []
  else
    let dist_x_pi := calculate_distance x_cra.atom.pos pi_center
    if dist_x_pi > DIST_HUDSON_MAX then []
    else
      processHs ns pdb_name resolution model_id chain_name residue mode ss_index
        pi_center pi_normal pi_b_mean x_cra dist_x_pi

/-- core._detect_residue. -/
def detect_residue (ns : NS) (svdNormal : List Vec3 → Vec3)
    (pdb_name : String) (resolution : ℝ) (model_id : String)
    (chain : Chain) (residue : Residue) (ss_index : SSIndex)
    (target_atoms : List String) (mode : Mode)
    (filter_donor filter_donor_atom : Option (List String)) : List Hit :=
  let pi_atoms := residue.atoms.filter (fun a => decide (a.name ∈ target_atoms))
  if pi_atoms.length ≠ target_atoms.length then []
  else
    match pi_atoms with
    | [] => []
    | a0 :: _ =>
      let positions := pi_atoms.map Atom.pos
      let pi_center := centroid positions
      let pi_normal := svdNormal positions
      let pi_b_mean := (pi_atoms.map Atom.b_iso).sum / pi_atoms.length
      let x_candidates := ns pi_center a0.altloc DIST_SEARCH_LIMIT
      (x_candidates.map
        (processX ns pdb_name resolution model_id chain.name residue mode ss_index
          filter_donor filter_donor_atom pi_center pi_normal pi_b_mean)).flatten

/-- One residue of the model scan: the pi-residue filter, then the main
dictionary, then the trpA dictionary. -/
def processResidue (ns : NS) (svdNormal : List Vec3 → Vec3)
    (pdb_name : String) (resolution : ℝ) (model_id : String)
    (chain : Chain) (residue : Residue) (ss_index : SSIndex)
    (filter_pi filter_donor filter_donor_atom : Option (List String)) : List Hit :=
  if rejectedBy filter_pi residue.name then []
  else
    (match RING_ATOMS residue.name with
     | some tgt =>
        detect_residue ns svdNormal pdb_name resolution model_id chain residue ss_index
          tgt Mode.main filter_donor filter_donor_atom
     | none => []) ++
    (match TRP_A_ATOMS residue.name with
     | some tgt =>
        detect_residue ns svdNormal pdb_name resolution model_id chain residue ss_index
          tgt Mode.trpA filter_donor filter_donor_atom
     | none => [])

/-- Everything done for one selected model: neighbor grid (the oracle),
secondary-structure index, and the chain/residue scan. -/
def processModel (ns_of : Model → NS) (svdNormal : List Vec3 → Vec3)
    (s : Structure) (pdb_name : String)
    (filter_pi filter_donor filter_donor_atom : Option (List String))
    (model : Model) (model_id : String) : List Hit :=
  let ns := ns_of model
  let ss_index := build_index s
  (model.chains.map (fun chain =>
    (chain.residues.map (fun residue =>
      processResidue ns svdNormal pdb_name s.resolution model_id chain residue ss_index
        filter_pi filter_donor filter_donor_atom)).flatten)).flatten

/-- `getattr(m, 'name', str(i+1))`. -/
def modelIdOf (m : Model) (i : ℕ) : String := m.name.getD (toString (i + 1))

/-- The model selector: `"all"`, an integer index, or a string that
`int(...)` fails to parse. -/
inductive ModelMode
  | all
  | idx (n : Int)
  | invalid

/-- core lines 29-49: which models are processed, with their identifier. -/
def selectModels (s : Structure) : ModelMode → List (Model × String)
  | ModelMode.all => s.models.enum.map (fun p => (p.2, modelIdOf p.2 p.1))
  | ModelMode.idx n =>
      if h : 0 ≤ n ∧ n < s.models.length then
        [(s.models.get ⟨n.toNat, by omega⟩,
          modelIdOf (s.models.get ⟨n.toNat, by omega⟩) n.toNat)]
      else []
  | ModelMode.invalid =>
      match s.models with
      | [] => []
      | m :: _ => [(m, m.name.getD "1")]

/-- core.detect_interactions_in_structure. -/
def detect_interactions_in_structure (ns_of : Model → NS) (svdNormal : List Vec3 → Vec3)
    (s : Structure) (pdb_name : String)
    (filter_pi filter_donor filter_donor_atom : Option (List String))
    (model_mode : ModelMode) : List Hit :=
  if s.models.length = 0 then []
  else
    ((selectModels s model_mode).map (fun p =>
      processModel ns_of svdNormal s pdb_name filter_pi filter_donor filter_donor_atom
        p.1 p.2)).flatten

/-! ## Basic facts about the angle formula -/

lemma deg_arccos_nonneg (t : ℝ) : 0 ≤ deg (Real.arccos t) := by
  rw [deg]
  exact div_nonneg (mul_nonneg (Real.arccos_nonneg t) (by norm_num)) Real.pi_pos.le

lemma deg_arccos_le (t : ℝ) : deg (Real.arccos t) ≤ 180 := by
  rw [deg, div_le_iff₀ Real.pi_pos]
  nlinarith [Real.arccos_le_pi t, Real.pi_pos]

lemma deg_pi : deg Real.pi = 180 := by
  rw [deg, mul_comm, mul_div_assoc, div_self Real.pi_ne_zero, mul_one]

lemma clip_eq_self {t : ℝ} (h1 : -1 ≤ t) (h2 : t ≤ 1) : clip t = t := by
  rw [clip, max_eq_left h1, min_eq_left h2]

/-- **C5.** On every input on which they are defined, `calculate_xpcn_angle`
and `calculate_hudson_theta` return a value in [0, 90] and
`calculate_xh_picenter_angle` returns a value in [0, 180]. -/
theorem angle_ranges (x_pos pi_center pi_normal h_pos : Vec3) (v : ℝ) :
    (calculate_xpcn_angle x_pos pi_center pi_normal = some v → 0 ≤ v ∧ v ≤ 90) ∧
    (calculate_xh_picenter_angle pi_center x_pos h_pos = some v → 0 ≤ v ∧ v ≤ 180) ∧
    (calculate_hudson_theta pi_center x_pos h_pos pi_normal = some v → 0 ≤ v ∧ v ≤ 90) := by
  refine ⟨?_, ?_, ?_⟩
  · rw [calculate_xpcn_angle_eq]
    set A := deg (Real.arccos (clip (Vec3.dot (pi_center - x_pos) pi_normal /
      (Vec3.norm (pi_center - x_pos) * Vec3.norm pi_normal)))) with hA
    have hA0 : 0 ≤ A := by rw [hA]; exact deg_arccos_nonneg _
    have hA180 : A ≤ 180 := by rw [hA]; exact deg_arccos_le _
    split_ifs with h1 h2
    · intro h; simp at h
    · intro h
      rw [Option.some_inj] at h
      subst h
      exact ⟨by linarith, by linarith⟩
    · intro h
      rw [Option.some_inj] at h
      subst h
      exact ⟨hA0, not_lt.mp h2⟩
  · rw [calculate_xh_picenter_angle_eq]
    set A := deg (Real.arccos (clip (Vec3.dot (h_pos - x_pos) (h_pos - pi_center) /
      (Vec3.norm (h_pos - x_pos) * Vec3.norm (h_pos - pi_center))))) with hA
    have hA0 : 0 ≤ A := by rw [hA]; exact deg_arccos_nonneg _
    have hA180 : A ≤ 180 := by rw [hA]; exact deg_arccos_le _
    split_ifs with h1
    · intro h; simp at h
    · intro h
      rw [Option.some_inj] at h
      subst h
      exact ⟨hA0, hA180⟩
  · rw [calculate_hudson_theta_eq]
    set A := deg (Real.arccos (clip (Vec3.dot pi_normal (h_pos - x_pos) /
      (Vec3.norm pi_normal * Vec3.norm (h_pos - x_pos))))) with hA
    have hA0 : 0 ≤ A := by rw [hA]; exact deg_arccos_nonneg _
    have hA180 : A ≤ 180 := by rw [hA]; exact deg_arccos_le _
    split_ifs with h1 h2 h3 h4
    · intro h; simp at h
    · intro h; simp at h
    · intro h
      rw [Option.some_inj] at h
      subst h
      exact ⟨by linarith, by linarith⟩
    · intro h
      rw [Option.some_inj] at h
      subst h
      exact ⟨hA0, by linarith [not_le.mp h4]⟩
    · intro h; simp at h

/-! ## Concrete evaluation points -/

def c0 : Vec3 := ⟨0, 0, 0⟩

def n0 : Vec3 := ⟨0, 0, 1⟩

def xp0 : Vec3 := ⟨0, 0, 1⟩

def hp0 : Vec3 := ⟨0, 0, 1/2⟩

def xp1 : Vec3 := ⟨1, 0, 0⟩

lemma norm_z (z : ℝ) : Vec3.norm ⟨0, 0, z⟩ = |z| := by
  show Real.sqrt (0 * 0 + 0 * 0 + z * z) = |z|
  rw [show (0:ℝ) * 0 + 0 * 0 + z * z = z * z by ring, Real.sqrt_mul_self_eq_abs]

lemma norm_xaxis (t : ℝ) : Vec3.norm ⟨t, 0, 0⟩ = |t| := by
  show Real.sqrt (t * t + 0 * 0 + 0 * 0) = |t|
  rw [show t * t + (0:ℝ) * 0 + 0 * 0 = t * t by ring, Real.sqrt_mul_self_eq_abs]

lemma sub_c0_xp0 : c0 - xp0 = (⟨0, 0, -1⟩ : Vec3) := by
  show Vec3.sub c0 xp0 = _
  rw [Vec3.sub, c0, xp0]
  norm_num

lemma sub_hp0_xp0 : hp0 - xp0 = (⟨0, 0, -(1/2)⟩ : Vec3) := by
  show Vec3.sub hp0 xp0 = _
  rw [Vec3.sub, hp0, xp0]
  norm_num

lemma sub_hp0_c0 : hp0 - c0 = (⟨0, 0, 1/2⟩ : Vec3) := by
  show Vec3.sub hp0 c0 = _
  rw [Vec3.sub, hp0, c0]
  norm_num

lemma norm_n0 : Vec3.norm n0 = 1 := by
  rw [show n0 = (⟨0, 0, (1:ℝ)⟩ : Vec3) from rfl, norm_z]
  norm_num

lemma clip_neg_one : clip (-1 : ℝ) = -1 :=
  clip_eq_self le_rfl (by norm_num)

/-- Concrete value: the xpcn angle of the standard test point is 0. -/
lemma xpcn_W : calculate_xpcn_angle xp0 c0 n0 = some 0 := by
  have hnv : Vec3.norm (⟨0, 0, -1⟩ : Vec3) = 1 := by rw [norm_z]; norm_num
  have hdot : Vec3.dot (⟨0, 0, -1⟩ : Vec3) n0 = -1 := by
    rw [Vec3.dot, n0]; norm_num
  rw [calculate_xpcn_angle_eq, sub_c0_xp0, hnv, norm_n0, hdot]
  have hc : clip (-1 / (1 * 1) : ℝ) = -1 := by
    rw [show (-1 / (1 * 1) : ℝ) = -1 by norm_num, clip_neg_one]
  rw [if_neg (by norm_num : ¬((1:ℝ) = 0 ∨ (1:ℝ) = 0)), hc, Real.arccos_neg_one, deg_pi,
    if_pos (by norm_num : (180:ℝ) > 90)]
  norm_num

/-- Concrete value: the XH-to-center angle of the standard test point is 180. -/
lemma xh_W : calculate_xh_picenter_angle c0 xp0 hp0 = some 180 := by
  have hn1 : Vec3.norm (⟨0, 0, -(1/2)⟩ : Vec3) = 1/2 := by rw [norm_z]; norm_num
  have hn2 : Vec3.norm (⟨0, 0, (1/2 : ℝ)⟩ : Vec3) = 1/2 := by rw [norm_z]; norm_num
  have hdot : Vec3.dot (⟨0, 0, -(1/2)⟩ : Vec3) (⟨0, 0, (1/2 : ℝ)⟩ : Vec3) = -(1/4) := by
    rw [Vec3.dot]; norm_num
  rw [calculate_xh_picenter_angle_eq, sub_hp0_xp0, sub_hp0_c0, hn1, hn2, hdot]
  have hc : clip (-(1/4) / (1/2 * (1/2)) : ℝ) = -1 := by
    rw [show (-(1/4) / (1/2 * (1/2)) : ℝ) = -1 by norm_num, clip_neg_one]
  rw [if_neg (by norm_num : ¬((1/2:ℝ) = 0 ∨ (1/2:ℝ) = 0)), hc, Real.arccos_neg_one, deg_pi]

/-- Concrete value: the Hudson theta of the standard test point is 0. -/
lemma theta_W : calculate_hudson_theta c0 xp0 hp0 n0 = some 0 := by
  have hnv : Vec3.norm (⟨0, 0, -1⟩ : Vec3) = 1 := by rw [norm_z]; norm_num
  have hnw : Vec3.norm (⟨0, 0, -(1/2)⟩ : Vec3) = 1/2 := by rw [norm_z]; norm_num
  have hdotp : Vec3.dot (⟨0, 0, -(1/2)⟩ : Vec3) (⟨0, 0, -1⟩ : Vec3) = 1/2 := by
    rw [Vec3.dot]; norm_num
  have hdotn : Vec3.dot n0 (⟨0, 0, -(1/2)⟩ : Vec3) = -(1/2) := by
    rw [Vec3.dot, n0]; norm_num
  rw [calculate_hudson_theta_eq, sub_c0_xp0, sub_hp0_xp0, hnv, hnw, hdotp, hdotn, norm_n0]
  have hc : clip (-(1/2) / (1 * (1/2)) : ℝ) = -1 := by
    rw [show (-(1/2) / (1 * (1/2)) : ℝ) = -1 by norm_num, clip_neg_one]
  rw [if_neg (by norm_num : ¬(1:ℝ) = 0), if_pos (by norm_num : (1/2 : ℝ) / 1 > 0),
    if_neg (by norm_num : ¬((1:ℝ) = 0 ∨ (1/2:ℝ) = 0)), hc, Real.arccos_neg_one, deg_pi,
    if_pos (by norm_num : (180:ℝ) ≥ 90)]
  norm_num

/-- Witness for C5: all three angle functions evaluated at a concrete
configuration, with their values inside the stated ranges. -/
theorem angle_ranges_witness :
    ((0:ℝ) ≤ 0 ∧ (0:ℝ) ≤ 90) ∧ ((0:ℝ) ≤ 180 ∧ (180:ℝ) ≤ 180) ∧
      ((0:ℝ) ≤ 0 ∧ (0:ℝ) ≤ 90) :=
  ⟨(angle_ranges xp0 c0 n0 hp0 0).1 xpcn_W,
   (angle_ranges xp0 c0 n0 hp0 180).2.1 xh_W,
   (angle_ranges xp0 c0 n0 hp0 0).2.2 theta_W⟩

/-! ## More vector facts -/

lemma dot_self_nonneg (a : Vec3) : 0 ≤ Vec3.dot a a := by
  rw [Vec3.dot]
  nlinarith [sq_nonneg a.x, sq_nonneg a.y, sq_nonneg a.z]

lemma norm_eq_zero_iff (a : Vec3) :
    Vec3.norm a = 0 ↔ a.x = 0 ∧ a.y = 0 ∧ a.z = 0 := by
  rw [Vec3.norm, Real.sqrt_eq_zero (dot_self_nonneg a), Vec3.dot]
  constructor
  · intro h
    refine ⟨?_, ?_, ?_⟩ <;> nlinarith [sq_nonneg a.x, sq_nonneg a.y, sq_nonneg a.z]
  · rintro ⟨h1, h2, h3⟩
    rw [h1, h2, h3]
    ring

/-- The angle between two vectors in degrees, as the source computes it. -/
def angleDeg (u v : Vec3) : ℝ :=
  deg (Real.arccos (clip (Vec3.dot u v / (Vec3.norm u * Vec3.norm v))))

/-- Fold an angle at or above 90 degrees to its supplement. -/
def fold90 (a : ℝ) : ℝ := if a ≥ 90 then 180 - a else a

/-- **C4.** `calculate_hudson_theta` is undefined (no value) whenever the
signed projection `dot(h - x, c - x)/|c - x|` is nonpositive or `|c - x|`
is zero; otherwise (the normal being nonzero, so that the angle exists) it
returns the angle between the normal and `h - x` folded into [0, 90] by
the 180-minus rule at 90; and an undefined theta short-circuits the pair
evaluation: no record is produced. -/
theorem hudson_theta_spec (pi_center x_pos h_pos normal : Vec3)
    (pdb_name : String) (resolution : ℝ) (model_id chain_name : String)
    (residue : Residue) (mode : Mode) (ss_index : SSIndex) (pi_b_mean dist_x_pi : ℝ)
    (x_cra h_cra : CRA) :
    (Vec3.norm (pi_center - x_pos) = 0 ∨
        Vec3.dot (h_pos - x_pos) (pi_center - x_pos) / Vec3.norm (pi_center - x_pos) ≤ 0 →
      calculate_hudson_theta pi_center x_pos h_pos normal = none) ∧
    (Vec3.norm (pi_center - x_pos) ≠ 0 →
      0 < Vec3.dot (h_pos - x_pos) (pi_center - x_pos) / Vec3.norm (pi_center - x_pos) →
      Vec3.norm normal ≠ 0 →
      calculate_hudson_theta pi_center x_pos h_pos normal =
        some (fold90 (angleDeg normal (h_pos - x_pos)))) ∧
    (calculate_hudson_theta pi_center x_cra.atom.pos h_cra.atom.pos normal = none →
      evalPair pdb_name resolution model_id chain_name residue mode ss_index
        pi_center normal pi_b_mean x_cra dist_x_pi h_cra = none) := by
  refine ⟨?_, ?_, ?_⟩
  · intro h
    rw [calculate_hudson_theta_eq]
    rcases h with h | h
    · rw [if_pos h]
    · split_ifs with h1 h2 h3 h4
      · rfl
      all_goals first | rfl | exact absurd h2 (not_lt.mpr h)
  · intro h1 h2 h3
    have hw : Vec3.norm (h_pos - x_pos) ≠ 0 := by
      intro h0
      obtain ⟨e1, e2, e3⟩ := (norm_eq_zero_iff _).mp h0
      have hz : Vec3.dot (h_pos - x_pos) (pi_center - x_pos) = 0 := by
        rw [Vec3.dot, e1, e2, e3]
        ring
      rw [hz, zero_div] at h2
      exact lt_irrefl 0 h2
    rw [calculate_hudson_theta_eq, if_neg h1, if_pos h2,
      if_neg (by intro h; rcases h with h | h; exact h3 h; exact hw h)]
    rw [fold90, angleDeg]
    split_ifs with h4
    · rfl
    · rfl
  · intro h
    simp only [evalPair, h]
    rcases hx : calculate_xpcn_angle x_cra.atom.pos pi_center normal with _ | a <;>
      rcases hy : calculate_xh_picenter_angle pi_center x_cra.atom.pos h_cra.atom.pos
        with _ | b <;>
      simp [hx, hy]

/-- An H position pointing away from the ring (behind X). -/
def hAway : Vec3 := ⟨0, 0, 2⟩

lemma sub_hAway_xp0 : hAway - xp0 = (⟨0, 0, 1⟩ : Vec3) := by
  show Vec3.sub hAway xp0 = _
  rw [Vec3.sub, hAway, xp0]
  norm_num

/-- Concrete value: for the away-pointing hydrogen the theta is undefined. -/
lemma theta_away_none : calculate_hudson_theta c0 xp0 hAway n0 = none := by
  have hd : Vec3.dot (⟨0, 0, 1⟩ : Vec3) (⟨0, 0, -1⟩ : Vec3) = -1 := by
    rw [Vec3.dot]; norm_num
  have hn : Vec3.norm (⟨0, 0, (-1 : ℝ)⟩ : Vec3) = 1 := by rw [norm_z]; norm_num
  rw [calculate_hudson_theta_eq, sub_c0_xp0, sub_hAway_xp0, hd, hn,
    if_neg (by norm_num : ¬(1:ℝ) = 0), if_neg (by norm_num : ¬(-1:ℝ) / 1 > 0)]

def xAtomW : Atom := ⟨"CA", "C", 'A', xp0, 0⟩

def hAtomW : Atom := ⟨"HA", "H", 'A', hp0, 0⟩

def hAtomAway : Atom := ⟨"HB", "H", 'A', hAway, 0⟩

def xCRAW : CRA := ⟨"A", "ALA", 2, xAtomW⟩

def hCRAW : CRA := ⟨"A", "ALA", 2, hAtomW⟩

def hCRAAway : CRA := ⟨"A", "ALA", 2, hAtomAway⟩

def ssE : SSIndex := fun _ => []

/-- Witness for C4: the three parts of `hudson_theta_spec` instantiated at
concrete geometry. -/
theorem hudson_theta_spec_witness :
    calculate_hudson_theta c0 xp0 hAway n0 = none ∧
    calculate_hudson_theta c0 xp0 hp0 n0 = some (fold90 (angleDeg n0 (hp0 - xp0))) ∧
    evalPair "p" 0 "1" "A" ⟨"TRP", 1, []⟩ Mode.main ssE c0 n0 0 xCRAW 1 hCRAAway = none := by
  have hproj : 0 < Vec3.dot (hp0 - xp0) (c0 - xp0) / Vec3.norm (c0 - xp0) := by
    rw [sub_hp0_xp0, sub_c0_xp0]
    have hd : Vec3.dot (⟨0, 0, -(1/2)⟩ : Vec3) (⟨0, 0, -1⟩ : Vec3) = 1/2 := by
      rw [Vec3.dot]; norm_num
    have hn : Vec3.norm (⟨0, 0, (-1 : ℝ)⟩ : Vec3) = 1 := by rw [norm_z]; norm_num
    rw [hd, hn]
    norm_num
  have hnv : Vec3.norm (c0 - xp0) ≠ 0 := by
    rw [sub_c0_xp0, norm_z]
    norm_num
  have hnn : Vec3.norm n0 ≠ 0 := by
    rw [norm_n0]
    norm_num
  refine ⟨theta_away_none, ?_, ?_⟩
  · exact (hudson_theta_spec c0 xp0 hp0 n0 "p" 0 "1" "A" ⟨"TRP", 1, []⟩ Mode.main
      ssE 0 1 xCRAW hCRAW).2.1 hnv hproj hnn
  · exact (hudson_theta_spec c0 xp0 hAway n0 "p" 0 "1" "A" ⟨"TRP", 1, []⟩ Mode.main
      ssE 0 1 xCRAW hCRAAway).2.2 theta_away_none

/-! ## C1: the Hudson flag -/

/-- The projection-distance threshold as the spec words it: 1.6 for the
trpA variant and for histidine, 2.0 for the six-membered rings. -/
def thresholdSpec (mode : Mode) (res_name : String) : ℝ :=
  if mode = Mode.trpA ∨ res_name = "HIS" then 1.6 else 2.0

lemma projThreshold_reachable (mode : Mode) (res_name : String)
    (hcombo : (mode = Mode.main ∧
        (res_name = "TRP" ∨ res_name = "TYR" ∨ res_name = "PHE" ∨ res_name = "HIS")) ∨
      (mode = Mode.trpA ∧ res_name = "TRP")) :
    projThreshold mode res_name = some (thresholdSpec mode res_name) := by
  rcases hcombo with ⟨hm, hr⟩ | ⟨hm, hr⟩
  · subst hm
    rcases hr with h | h | h | h <;> subst h <;> simp [projThreshold, thresholdSpec]
  · subst hm
    subst hr
    simp [projThreshold, thresholdSpec]

/-- **C1.** For every evaluated (pi-system, X, H) triple — that is, for the
mode/residue combinations the scan can reach — the Hudson flag is 1 iff
theta ≤ 40, dist ≤ 4.5, the projection distance is defined, and it is at
most the context threshold (1.6 for trpA or histidine, 2.0 for the
six-membered rings of TRP, TYR, PHE). -/
theorem hudson_flag_spec (mode : Mode) (res_name : String) (theta dist_x_pi : ℝ)
    (pi_normal pi_center x_pos : Vec3)
    (hcombo : (mode = Mode.main ∧
        (res_name = "TRP" ∨ res_name = "TYR" ∨ res_name = "PHE" ∨ res_name = "HIS")) ∨
      (mode = Mode.trpA ∧ res_name = "TRP")) :
    (hudsonEval mode res_name theta dist_x_pi pi_normal pi_center x_pos).1 = 1 ↔
      theta ≤ 40.0 ∧ dist_x_pi ≤ 4.5 ∧
      ∃ pd, calculate_projection_dist pi_normal pi_center x_pos = some pd ∧
        pd ≤ thresholdSpec mode res_name := by
  have hthr := projThreshold_reachable mode res_name hcombo
  rcases hp : calculate_projection_dist pi_normal pi_center x_pos with _ | pd
  · simp [hudsonEval, hthr, hp]
  · simp only [hudsonEval, hthr, hp]
    split_ifs with hc
    · constructor
      · intro _
        exact ⟨hc.1, hc.2.1, pd, rfl, hc.2.2⟩
      · intro _
        rfl
    · constructor
      · intro h0
        exact absurd h0 (by norm_num)
      · rintro ⟨ht, hd, pd', heq, hle⟩
        rw [Option.some_inj] at heq
        subst heq
        exact absurd ⟨ht, hd, hle⟩ hc

lemma dot_n0_n0 : Vec3.dot n0 n0 = 1 := by
  rw [Vec3.dot, n0]
  norm_num

lemma sub_c0_xp1 : c0 - xp1 = (⟨-1, 0, 0⟩ : Vec3) := by
  show Vec3.sub c0 xp1 = _
  rw [Vec3.sub, c0, xp1]
  norm_num

/-- Concrete value: projection distance of `xp1` onto the plane is 1. -/
lemma proj_W1 : calculate_projection_dist n0 c0 xp1 = some 1 := by
  have e1 : Vec3.dot n0 (⟨-1, 0, 0⟩ : Vec3) = 0 := by
    rw [Vec3.dot, n0]
    norm_num
  rw [calculate_projection_dist_eq, dot_n0_n0, sub_c0_xp1, e1,
    if_neg (by norm_num : ¬(1:ℝ) = 0)]
  have e2 : xp1 + ((0:ℝ) / 1) • n0 - c0 = (⟨1, 0, 0⟩ : Vec3) := by
    show Vec3.sub (Vec3.add xp1 (Vec3.smul ((0:ℝ)/1) n0)) c0 = _
    rw [Vec3.smul, Vec3.add, Vec3.sub, xp1, n0, c0]
    norm_num
  rw [e2, norm_xaxis]
  norm_num

/-- Witness for C1: a main-mode tryptophan triple with theta 30, distance
4 and projection distance 1 gets Hudson flag 1. -/
theorem hudson_flag_spec_witness :
    (hudsonEval Mode.main "TRP" 30 4 n0 c0 xp1).1 = 1 :=
  (hudson_flag_spec Mode.main "TRP" 30 4 n0 c0 xp1 (Or.inl ⟨rfl, Or.inl rfl⟩)).mpr
    ⟨by norm_num, by norm_num, 1, proj_W1, by rw [thresholdSpec, if_neg (by decide)]; norm_num⟩

/-! ## C2: record emission -/

lemma plevinFlag_eq_one_iff (d xh xp : ℝ) :
    plevinFlag d xh xp = 1 ↔ d < DIST_PLEVIN_MAX ∧ xh > 120.0 ∧ xp < 25.0 := by
  rw [plevinFlag]
  split_ifs with h
  · simp [h]
  · simp [h]

lemma plevinFlag_zero_or_one (d xh xp : ℝ) :
    plevinFlag d xh xp = 0 ∨ plevinFlag d xh xp = 1 := by
  rw [plevinFlag]
  split_ifs <;> simp

lemma hudsonEval_fst_zero_or_one (mode : Mode) (res_name : String)
    (theta dist_x_pi : ℝ) (pi_normal pi_center x_pos : Vec3) :
    (hudsonEval mode res_name theta dist_x_pi pi_normal pi_center x_pos).1 = 0 ∨
    (hudsonEval mode res_name theta dist_x_pi pi_normal pi_center x_pos).1 = 1 := by
  rcases ht : projThreshold mode res_name with _ | thr
  · simp [hudsonEval, ht]
  · rcases hp : calculate_projection_dist pi_normal pi_center x_pos with _ | pd
    · simp [hudsonEval, ht, hp]
    · simp only [hudsonEval, ht, hp]
      split_ifs <;> simp

/-- Closed form of `evalPair` once the element check passes and the three
angle quantities are defined. -/
lemma evalPair_eq (pdb_name : String) (resolution : ℝ)
    (model_id chain_name : String) (residue : Residue) (mode : Mode)
    (ss_index : SSIndex) (pi_center pi_normal : Vec3) (pi_b_mean dist_x_pi : ℝ)
    (x_cra h_cra : CRA) (a b t : ℝ)
    (helem : h_cra.atom.element ∈ TARGET_ELEMENTS_H)
    (ha : calculate_xpcn_angle x_cra.atom.pos pi_center pi_normal = some a)
    (hb : calculate_xh_picenter_angle pi_center x_cra.atom.pos h_cra.atom.pos = some b)
    (ht : calculate_hudson_theta pi_center x_cra.atom.pos h_cra.atom.pos pi_normal = some t) :
    evalPair pdb_name resolution model_id chain_name residue mode ss_index
      pi_center pi_normal pi_b_mean x_cra dist_x_pi h_cra =
      (if plevinFlag dist_x_pi b a = 0 ∧
          (hudsonEval mode residue.name t dist_x_pi pi_normal pi_center x_cra.atom.pos).1 = 0
        then none
        else some
          { pdb := pdb_name, model := model_id, resolution := resolution
            pi_chain := chain_name, pi_res := residue.name, pi_id := residue.seqid
            X_chain := x_cra.chain_name, X_res := x_cra.res_name, X_id := x_cra.res_seq
            X_atom := x_cra.atom.name, H_atom := h_cra.atom.name
            dist_X_Pi := round3 dist_x_pi
            is_plevin := plevinFlag dist_x_pi b a
            is_hudson :=
              (hudsonEval mode residue.name t dist_x_pi pi_normal pi_center x_cra.atom.pos).1
            remark := if residue.name = "TRP"
              then (if mode = Mode.main then "6-ring" else "5-ring") else ""
            pi_ss_type := (get_info chain_name residue.seqid ss_index).1
            pi_ss_id := (get_info chain_name residue.seqid ss_index).2
            X_ss_type := (get_info x_cra.chain_name x_cra.res_seq ss_index).1
            X_ss_id := (get_info x_cra.chain_name x_cra.res_seq ss_index).2
            pi_avg_b := round2 pi_b_mean
            pi_center_x := round3 pi_center.x, pi_center_y := round3 pi_center.y
            pi_center_z := round3 pi_center.z
            X_b := round2 x_cra.atom.b_iso
            X_xyz_x := round3 x_cra.atom.pos.x, X_xyz_y := round3 x_cra.atom.pos.y
            X_xyz_z := round3 x_cra.atom.pos.z
            seq_sep := if chain_name = x_cra.chain_name
              then |residue.seqid - x_cra.res_seq| else -1
            theta := round2 t
            angle_XH_Pi := round2 b, angle_XPCN := round2 a
            proj_dist := Option.map round3
              (hudsonEval mode residue.name t dist_x_pi pi_normal pi_center x_cra.atom.pos).2 }) := by
  simp only [evalPair, ha, hb, ht]
  rw [if_neg (not_not_intro helem)]

/-- **C2.** For an evaluated triple whose three angle quantities are all
defined: a record is produced iff the Plevin flag or the Hudson flag is 1;
the Plevin flag is 1 iff dist < 4.3, the XH-center angle > 120 and the
xpcn angle < 25; both flags are carried in the record; and an emitted
record with is_plevin = 1 always has dist_X_Pi < 4.3. -/
theorem record_emission_spec (pdb_name : String) (resolution : ℝ)
    (model_id chain_name : String) (residue : Residue) (mode : Mode)
    (ss_index : SSIndex) (pi_center pi_normal : Vec3) (pi_b_mean dist_x_pi : ℝ)
    (x_cra h_cra : CRA) (a b t : ℝ)
    (helem : h_cra.atom.element ∈ TARGET_ELEMENTS_H)
    (ha : calculate_xpcn_angle x_cra.atom.pos pi_center pi_normal = some a)
    (hb : calculate_xh_picenter_angle pi_center x_cra.atom.pos h_cra.atom.pos = some b)
    (ht : calculate_hudson_theta pi_center x_cra.atom.pos h_cra.atom.pos pi_normal = some t) :
    ((∃ r, evalPair pdb_name resolution model_id chain_name residue mode ss_index
        pi_center pi_normal pi_b_mean x_cra dist_x_pi h_cra = some r) ↔
      (plevinFlag dist_x_pi b a = 1 ∨
        (hudsonEval mode residue.name t dist_x_pi pi_normal pi_center x_cra.atom.pos).1 = 1)) ∧
    (plevinFlag dist_x_pi b a = 1 ↔ dist_x_pi < 4.3 ∧ b > 120.0 ∧ a < 25.0) ∧
    (∀ r, evalPair pdb_name resolution model_id chain_name residue mode ss_index
        pi_center pi_normal pi_b_mean x_cra dist_x_pi h_cra = some r →
      r.is_plevin = plevinFlag dist_x_pi b a ∧
      r.is_hudson =
        (hudsonEval mode residue.name t dist_x_pi pi_normal pi_center x_cra.atom.pos).1 ∧
      (r.is_plevin = 1 → dist_x_pi < 4.3)) := by
  have hpe := evalPair_eq pdb_name resolution model_id chain_name residue mode ss_index
    pi_center pi_normal pi_b_mean dist_x_pi x_cra h_cra a b t helem ha hb ht
  refine ⟨?_, ?_, ?_⟩
  · rw [hpe]
    by_cases h0 : plevinFlag dist_x_pi b a = 0 ∧
        (hudsonEval mode residue.name t dist_x_pi pi_normal pi_center x_cra.atom.pos).1 = 0
    · rw [if_pos h0]
      simp only [h0.1, h0.2]
      constructor
      · rintro ⟨r, hr⟩
        simp at hr
      · rintro (h | h) <;> exact absurd h (by norm_num)
    · rw [if_neg h0]
      constructor
      · intro _
        rcases plevinFlag_zero_or_one dist_x_pi b a with hz | ho
        · rcases hudsonEval_fst_zero_or_one mode residue.name t dist_x_pi pi_normal
            pi_center x_cra.atom.pos with hz2 | ho2
          · exact absurd ⟨hz, hz2⟩ h0
          · exact Or.inr ho2
        · exact Or.inl ho
      · intro _
        exact ⟨_, rfl⟩
  · rw [plevinFlag_eq_one_iff]
    rw [DIST_PLEVIN_MAX]
  · intro r hr
    rw [hpe] at hr
    by_cases h0 : plevinFlag dist_x_pi b a = 0 ∧
        (hudsonEval mode residue.name t dist_x_pi pi_normal pi_center x_cra.atom.pos).1 = 0
    · rw [if_pos h0] at hr
      simp at hr
    · rw [if_neg h0, Option.some_inj] at hr
      subst hr
      refine ⟨rfl, rfl, ?_⟩
      intro hp1
      have := (plevinFlag_eq_one_iff dist_x_pi b a).mp hp1
      rw [DIST_PLEVIN_MAX] at this
      exact this.1

lemma plevin_W : plevinFlag 1 180 0 = 1 := by
  rw [plevinFlag, DIST_PLEVIN_MAX, if_pos (by norm_num)]

/-- Witness for C2: the standard concrete triple satisfies Plevin and is
emitted. -/
theorem record_emission_spec_witness :
    ∃ r, evalPair "p" 0 "1" "A" ⟨"TRP", 1, []⟩ Mode.main ssE c0 n0 0 xCRAW 1 hCRAW = some r :=
  (record_emission_spec "p" 0 "1" "A" ⟨"TRP", 1, []⟩ Mode.main ssE c0 n0 0 1 xCRAW hCRAW
      0 180 0 (by simp [TARGET_ELEMENTS_H, hCRAW, hAtomW]) xpcn_W xh_W theta_W).1.mpr
    (Or.inl plevin_W)

/-! ## C7: the secondary-structure index -/

/-- A validated helix or strand range before uid assignment. -/
structure RawRange where
  chain : String
  lo : Int
  hi : Int
  ty : String

/-- A helix whose residue ids are both present, with its type code. -/
def validHelix (h : Helix) : Option RawRange :=
  match h.start_seq, h.end_seq with
  | some a, some b => some ⟨h.chain_name, a, b, helixCode h⟩
  | _, _ => none

/-- A strand whose residue ids are both present. -/
def validStrand (st : Strand) : Option RawRange :=
  match st.start_seq, st.end_seq with
  | some a, some b => some ⟨st.chain_name, a, b, "E"⟩
  | _, _ => none

/-- Assign consecutive uids starting at `k` to a range list. -/
def taggedRanges : List RawRange → Int → List (String × SSRegion)
  | [], _ => []
  | r :: rest, k => (r.chain, ⟨r.lo, r.hi, r.ty, k⟩) :: taggedRanges rest (k + 1)

/-- All well-formed ranges in emission order: helices in source order,
then the strands of all sheets in source order. -/
def validRanges (s : Structure) : List RawRange :=
  s.helices.filterMap validHelix ++ (s.sheets.flatMap Sheet.strands).filterMap validStrand

/-- The emitted regions, in emission order, with uids 1, 2, ... -/
def emittedRegions (s : Structure) : List (String × SSRegion) :=
  taggedRanges (validRanges s) 1

/-- The lookup as the spec words it: first region of the chain whose
closed interval contains the residue number, else coil. -/
def lookupSpec (regions : List SSRegion) (n : Int) : String × Int :=
  match regions.find? (fun r => decide (r.start_num ≤ n ∧ n ≤ r.end_num)) with
  | some r => (r.ss_type, r.uid)
  | none => ("C", -1)

lemma lookupSpec_cons (r : SSRegion) (rest : List SSRegion) (n : Int) :
    lookupSpec (r :: rest) n =
      if r.start_num ≤ n ∧ n ≤ r.end_num then (r.ss_type, r.uid) else lookupSpec rest n := by
  by_cases h : r.start_num ≤ n ∧ n ≤ r.end_num
  · rw [if_pos h, lookupSpec, List.find?_cons_of_pos _ (by simpa using h)]
  · rw [if_neg h, lookupSpec, List.find?_cons_of_neg _ (by simpa using h), lookupSpec]

lemma scan_eq_lookupSpec (l : List SSRegion) (n : Int) :
    scan_regions l n = lookupSpec l n := by
  induction l with
  | nil => rfl
  | cons r rest ih =>
    rw [scan_regions, lookupSpec_cons, ih]

lemma build_helices_fst (hs : List Helix) :
    ∀ (idx : SSIndex) (k : Int) (c : String),
    (build_helices hs idx k).1 c =
      idx c ++ ((taggedRanges (hs.filterMap validHelix) k).filter
        (fun p => decide (p.1 = c))).map Prod.snd := by
  induction hs with
  | nil =>
    intro idx k c
    simp [build_helices, taggedRanges]
  | cons h rest ih =>
    intro idx k c
    rcases hs1 : h.start_seq with _ | a <;> rcases hs2 : h.end_seq with _ | b <;>
      simp only [build_helices, hs1, hs2, List.filterMap_cons, validHelix]
    · exact ih idx k c
    · exact ih idx k c
    · exact ih idx k c
    · rw [ih (add_range idx h.chain_name ⟨a, b, helixCode h, k⟩) (k + 1) c, add_range,
        taggedRanges]
      by_cases hc : h.chain_name = c
      · rw [if_pos hc.symm, List.filter_cons_of_pos (by simpa using hc),
          List.map_cons, List.append_assoc, List.singleton_append]
      · rw [if_neg (fun hcc => hc hcc.symm), List.filter_cons_of_neg (by simpa using hc)]

lemma build_helices_snd (hs : List Helix) :
    ∀ (idx : SSIndex) (k : Int),
    (build_helices hs idx k).2 = k + (hs.filterMap validHelix).length := by
  induction hs with
  | nil =>
    intro idx k
    simp [build_helices]
  | cons h rest ih =>
    intro idx k
    rcases hs1 : h.start_seq with _ | a <;> rcases hs2 : h.end_seq with _ | b <;>
      simp only [build_helices, hs1, hs2, List.filterMap_cons, validHelix]
    · exact ih idx k
    · exact ih idx k
    · exact ih idx k
    · rw [ih _ (k + 1), List.length_cons]
      push_cast
      ring

lemma build_strands_fst (sts : List Strand) :
    ∀ (idx : SSIndex) (k : Int) (c : String),
    (build_strands sts idx k).1 c =
      idx c ++ ((taggedRanges (sts.filterMap validStrand) k).filter
        (fun p => decide (p.1 = c))).map Prod.snd := by
  induction sts with
  | nil =>
    intro idx k c
    simp [build_strands, taggedRanges]
  | cons st rest ih =>
    intro idx k c
    rcases hs1 : st.start_seq with _ | a <;> rcases hs2 : st.end_seq with _ | b <;>
      simp only [build_strands, hs1, hs2, List.filterMap_cons, validStrand]
    · exact ih idx k c
    · exact ih idx k c
    · exact ih idx k c
    · rw [ih (add_range idx st.chain_name ⟨a, b, "E", k⟩) (k + 1) c, add_range,
        taggedRanges]
      by_cases hc : st.chain_name = c
      · rw [if_pos hc.symm, List.filter_cons_of_pos (by simpa using hc),
          List.map_cons, List.append_assoc, List.singleton_append]
      · rw [if_neg (fun hcc => hc hcc.symm), List.filter_cons_of_neg (by simpa using hc)]

lemma taggedRanges_append (l1 l2 : List RawRange) (k : Int) :
    taggedRanges (l1 ++ l2) k =
      taggedRanges l1 k ++ taggedRanges l2 (k + l1.length) := by
  induction l1 generalizing k with
  | nil => simp [taggedRanges]
  | cons r rest ih =>
    rw [List.cons_append, taggedRanges, taggedRanges, ih (k + 1), List.length_cons,
      List.cons_append]
    congr 2
    push_cast
    ring_nf

lemma taggedRanges_uids (l : List RawRange) (k : Int) :
    (taggedRanges l k).map (fun p => p.2.uid) =
      (List.range l.length).map (fun i : ℕ => k + (i : Int)) := by
  induction l generalizing k with
  | nil => simp [taggedRanges]
  | cons r rest ih =>
    rw [taggedRanges, List.map_cons, ih (k + 1), List.length_cons,
      List.range_succ_eq_map, List.map_cons, List.map_map]
    congr 1
    · simp
    · apply List.map_congr_left
      intro i _
      simp only [Function.comp]
      push_cast
      ring

/-- **C7.** `get_info` is the first-containing-region linear scan with a
`('C', -1)` default; `build_index` holds, per chain and in order, exactly
the valid helix regions (in source order) followed by the valid strand
regions (in source order); malformed records with missing residue ids are
dropped; and the emitted uids are strictly increasing starting at 1. -/
theorem ss_lookup_spec (s : Structure) (chain : String) (n : Int) :
    get_info chain n (build_index s) = lookupSpec (build_index s chain) n ∧
    build_index s chain =
      ((emittedRegions s).filter (fun p => decide (p.1 = chain))).map Prod.snd ∧
    (emittedRegions s).map (fun p => p.2.uid) =
      (List.range (validRanges s).length).map (fun i : ℕ => 1 + (i : Int)) := by
  refine ⟨scan_eq_lookupSpec _ _, ?_, ?_⟩
  · show (build_strands (s.sheets.flatMap Sheet.strands)
        (build_helices s.helices (fun _ => []) 1).1
        (build_helices s.helices (fun _ => []) 1).2).1 chain = _
    rw [build_strands_fst, build_helices_fst, build_helices_snd, emittedRegions,
      validRanges, taggedRanges_append, List.filter_append, List.map_append,
      List.nil_append]
  · rw [emittedRegions, taggedRanges_uids]

/-! ## C10: hydrogen enumeration is purely geometric -/

lemma filterMap_eq_filter_filterMap {α β : Type} (p : α → Prop) [DecidablePred p]
    (f : α → Option β) (hf : ∀ a, ¬ p a → f a = none) (l : List α) :
    l.filterMap f = (l.filter (fun a => decide (p a))).filterMap f := by
  induction l with
  | nil => rfl
  | cons a rest ih =>
    rw [List.filter_cons]
    by_cases h : p a
    · rw [if_pos (by simpa using h), List.filterMap_cons, List.filterMap_cons, ih]
    · rw [if_neg (by simpa using h)]
      simp only [List.filterMap_cons, hf a h]
      exact ih

/-- **C10.** The hydrogens attached to a surviving X donor are determined
purely by geometry: the hits for X are exactly the element-H/D-filtered
neighbor-search result around X's position with X's altloc, each member
evaluated as an (X, H) pair; and the evaluation of an H candidate depends
only on its atom data, never on its residue or chain membership. -/
theorem hydrogen_pairs_spec (ns : NS) (pdb_name : String) (resolution : ℝ)
    (model_id chain_name : String) (residue : Residue) (mode : Mode) (ss_index : SSIndex)
    (filter_donor filter_donor_atom : Option (List String))
    (pi_center pi_normal : Vec3) (pi_b_mean : ℝ) (x_cra : CRA)
    (hx : x_cra.atom.element ∈ TARGET_ELEMENTS_X)
    (hfd : ¬ rejectedBy filter_donor x_cra.res_name)
    (hfda : ¬ rejectedBy filter_donor_atom x_cra.atom.element)
    (hdist : ¬ calculate_distance x_cra.atom.pos pi_center > DIST_HUDSON_MAX) :
    processX ns pdb_name resolution model_id chain_name residue mode ss_index
        filter_donor filter_donor_atom pi_center pi_normal pi_b_mean x_cra =
      ((ns x_cra.atom.pos x_cra.atom.altloc DIST_CUTOFF_H).filter
          (fun h => decide (h.atom.element ∈ TARGET_ELEMENTS_H))).filterMap
        (evalPair pdb_name resolution model_id chain_name residue mode ss_index
          pi_center pi_normal pi_b_mean x_cra
          (calculate_distance x_cra.atom.pos pi_center)) ∧
    (∀ h1 h2 : CRA, h1.atom = h2.atom →
      evalPair pdb_name resolution model_id chain_name residue mode ss_index
        pi_center pi_normal pi_b_mean x_cra
        (calculate_distance x_cra.atom.pos pi_center) h1 =
      evalPair pdb_name resolution model_id chain_name residue mode ss_index
        pi_center pi_normal pi_b_mean x_cra
        (calculate_distance x_cra.atom.pos pi_center) h2) := by
  constructor
  · simp only [processX]
    rw [if_neg (not_not_intro hx), if_neg hfd, if_neg hfda, if_neg hdist, processHs]
    exact filterMap_eq_filter_filterMap _ _
      (fun h hh => by simp only [evalPair]; rw [if_pos hh]) _
  · intro h1 h2 he
    simp only [evalPair, he]

def nsEmpty : NS := fun _ _ _ => []

lemma sub_xp0_c0 : xp0 - c0 = (⟨0, 0, 1⟩ : Vec3) := by
  show Vec3.sub xp0 c0 = _
  rw [Vec3.sub, xp0, c0]
  norm_num

lemma dist_xp0_c0 : calculate_distance xp0 c0 = 1 := by
  rw [calculate_distance, sub_xp0_c0, norm_z]
  norm_num

/-- An H candidate with the same atom as `hCRAW` but a different residue
and chain. -/
def hCRADiff : CRA := ⟨"B", "GLY", 7, hAtomW⟩

/-- Witness for C10: two hydrogen candidates with identical atom data but
different residue/chain membership are evaluated identically. -/
theorem hydrogen_pairs_spec_witness :
    evalPair "p" 0 "1" "A" ⟨"TRP", 1, []⟩ Mode.main ssE c0 n0 0 xCRAW
        (calculate_distance xCRAW.atom.pos c0) hCRAW =
      evalPair "p" 0 "1" "A" ⟨"TRP", 1, []⟩ Mode.main ssE c0 n0 0 xCRAW
        (calculate_distance xCRAW.atom.pos c0) hCRADiff :=
  (hydrogen_pairs_spec nsEmpty "p" 0 "1" "A" ⟨"TRP", 1, []⟩ Mode.main ssE none none
      c0 n0 0 xCRAW (by simp [TARGET_ELEMENTS_X, xCRAW, xAtomW])
      (by simp [rejectedBy]) (by simp [rejectedBy])
      (by rw [show xCRAW.atom.pos = xp0 from rfl, dist_xp0_c0, DIST_HUDSON_MAX]
          norm_num)).2
    hCRAW hCRADiff rfl

/-! ## C8: determinism -/

/-- **C8.** `detect_interactions_in_structure` is a pure function of its
arguments (prepared structure, neighbor oracle, plane-fit oracle, pdb
identifier, filters, model selection): two invocations with identical
arguments give identical ordered result lists. -/
theorem detect_deterministic (ns_of : Model → NS) (svdNormal : List Vec3 → Vec3)
    (s : Structure) (pdb_name : String)
    (filter_pi filter_donor filter_donor_atom : Option (List String)) (mm : ModelMode) :
    detect_interactions_in_structure ns_of svdNormal s pdb_name
        filter_pi filter_donor filter_donor_atom mm =
      detect_interactions_in_structure ns_of svdNormal s pdb_name
        filter_pi filter_donor filter_donor_atom mm := rfl

/-! ## C9: unparsable model selector -/

/-- The plane-fit oracle used at concrete evaluation points: it returns
the +Z axis, matching the test geometry. -/
def svd0 : List Vec3 → Vec3 := fun _ => n0

/-- A structure with one model that produces no hits. -/
def S1 : Structure := ⟨[⟨some "1", []⟩], 0, [], []⟩

/-- Counterexample for C9 as stated: the structure has at least one model
and the selector is unparsable, yet the result list is empty (the first
model simply yields no hits), refuting "does not yield an empty result". -/
theorem invalid_mode_counterexample :
    S1.models ≠ [] ∧
    detect_interactions_in_structure (fun _ => nsEmpty) svd0 S1 "p"
      none none none ModelMode.invalid = [] := by
  constructor
  · simp [S1]
  · rw [detect_interactions_in_structure, if_neg (by simp [S1])]
    simp [selectModels, S1, processModel]

/-- **C9 (amended).** For a structure with at least one model, a selector
that is neither "all" nor an integer does not raise: the selection falls
back to exactly the first model (whose identifier defaults to "1" when the
model has no name) and detect returns that single model's hits — which may
themselves be an empty list. -/
theorem invalid_mode_fallback (ns_of : Model → NS) (svdNormal : List Vec3 → Vec3)
    (s : Structure) (pdb_name : String)
    (filter_pi filter_donor filter_donor_atom : Option (List String))
    (m : Model) (rest : List Model) (hs : s.models = m :: rest) :
    selectModels s ModelMode.invalid = [(m, m.name.getD "1")] ∧
    detect_interactions_in_structure ns_of svdNormal s pdb_name
        filter_pi filter_donor filter_donor_atom ModelMode.invalid =
      processModel ns_of svdNormal s pdb_name
        filter_pi filter_donor filter_donor_atom m (m.name.getD "1") := by
  have h1 : selectModels s ModelMode.invalid = [(m, m.name.getD "1")] := by
    simp [selectModels, hs]
  refine ⟨h1, ?_⟩
  rw [detect_interactions_in_structure, if_neg (by simp [hs]), h1]
  simp

/-- Witness for the amended C9 at the concrete one-model structure. -/
theorem invalid_mode_fallback_witness :
    selectModels S1 ModelMode.invalid = [(⟨some "1", []⟩, "1")] ∧
    detect_interactions_in_structure (fun _ => nsEmpty) svd0 S1 "p"
        none none none ModelMode.invalid =
      processModel (fun _ => nsEmpty) svd0 S1 "p" none none none ⟨some "1", []⟩ "1" :=
  invalid_mode_fallback (fun _ => nsEmpty) svd0 S1 "p" none none none
    ⟨some "1", []⟩ [] rfl

/-! ## C3: residue qualification -/

lemma filter_names_length (residue : Residue) (tgt : List String) :
    (residue.atoms.filter (fun a => decide (a.name ∈ tgt))).length =
      ((residue.atoms.map Atom.name).filter (fun x => decide (x ∈ tgt))).length := by
  rw [List.filter_map, List.length_map]
  rfl

lemma count_eq_iff_all_present (L T : List String) (hL : L.Nodup) (hT : T.Nodup) :
    (L.filter (fun x => decide (x ∈ T))).length = T.length ↔ ∀ x ∈ T, x ∈ L := by
  set F := L.filter (fun x => decide (x ∈ T)) with hF
  have hFnd : F.Nodup := hL.filter _
  have hFT : ∀ x ∈ F, x ∈ T := by
    intro x hx
    have := List.of_mem_filter hx
    simpa using this
  have hFL : ∀ x ∈ F, x ∈ L := fun x hx => List.mem_of_mem_filter hx
  constructor
  · intro hlen x hxT
    have hsub : F.toFinset ⊆ T.toFinset := by
      intro y hy
      rw [List.mem_toFinset] at hy ⊢
      exact hFT y hy
    have hcard : T.toFinset.card ≤ F.toFinset.card := by
      rw [List.toFinset_card_of_nodup hFnd, List.toFinset_card_of_nodup hT, hlen]
    have heq := Finset.eq_of_subset_of_card_le hsub hcard
    have hxF : x ∈ F := by
      have hmem : x ∈ T.toFinset := List.mem_toFinset.mpr hxT
      rw [← heq] at hmem
      exact List.mem_toFinset.mp hmem
    exact hFL x hxF
  · intro hall
    have hsub1 : F.toFinset ⊆ T.toFinset := by
      intro y hy
      rw [List.mem_toFinset] at hy ⊢
      exact hFT y hy
    have hsub2 : T.toFinset ⊆ F.toFinset := by
      intro y hy
      rw [List.mem_toFinset] at hy ⊢
      rw [hF, List.mem_filter]
      exact ⟨hall y hy, by simpa using hy⟩
    have h1 := Finset.card_le_card hsub1
    have h2 := Finset.card_le_card hsub2
    rw [List.toFinset_card_of_nodup hFnd, List.toFinset_card_of_nodup hT] at h1 h2
    omega

/-- **C3 (amended).** A residue qualifies for a pi-system definition
(contributing hits is possible at all) iff the count of its atoms whose
name is in the required set equals the size of the set; a residue that
does not qualify contributes no hits and no error is raised.  When the
residue's atom names are distinct, this count test is equivalent to all
required names being present; with duplicated atom names it is not (see
the counterexample). -/
theorem qualify_spec (ns : NS) (svdNormal : List Vec3 → Vec3) (pdb_name : String)
    (resolution : ℝ) (model_id : String) (chain : Chain) (residue : Residue)
    (ss_index : SSIndex) (target_atoms : List String) (mode : Mode)
    (filter_donor filter_donor_atom : Option (List String)) :
    ((residue.atoms.filter (fun a => decide (a.name ∈ target_atoms))).length ≠
        target_atoms.length →
      detect_residue ns svdNormal pdb_name resolution model_id chain residue ss_index
        target_atoms mode filter_donor filter_donor_atom = []) ∧
    (target_atoms.Nodup → (residue.atoms.map Atom.name).Nodup →
      ((residue.atoms.filter (fun a => decide (a.name ∈ target_atoms))).length =
          target_atoms.length ↔
        ∀ x ∈ target_atoms, x ∈ residue.atoms.map Atom.name)) := by
  constructor
  · intro hne
    simp only [detect_residue]
    rw [if_pos hne]
  · intro hT hL
    rw [filter_names_length]
    exact count_eq_iff_all_present _ _ hL hT

def mkRingAtom (nm : String) : Atom := ⟨nm, "C", 'A', ⟨0, 0, 0⟩, 0⟩

/-- A full tryptophan six-membered ring, all atoms at the origin. -/
def resTRP : Residue :=
  ⟨"TRP", 1, [mkRingAtom "CD2", mkRingAtom "CE2", mkRingAtom "CE3",
    mkRingAtom "CZ2", mkRingAtom "CZ3", mkRingAtom "CH2"]⟩

/-- A tryptophan residue with atom name CD2 duplicated and CH2 missing:
six atoms whose names all belong to the required set. -/
def resDup : Residue :=
  ⟨"TRP", 1, [mkRingAtom "CD2", mkRingAtom "CD2", mkRingAtom "CE2",
    mkRingAtom "CE3", mkRingAtom "CZ2", mkRingAtom "CZ3"]⟩

/-- Witness for the amended C3: an atom-less residue does not qualify for
the TRP definition and contributes no hits; and for the full ring residue
(distinct atom names) the count test is passed, hence every required name
is present. -/
theorem qualify_spec_witness :
    detect_residue nsEmpty svd0 "p" 0 "1" ⟨"A", []⟩ ⟨"GLY", 1, []⟩ ssE
      ["CD2", "CE2", "CE3", "CZ2", "CZ3", "CH2"] Mode.main none none = [] ∧
    ∀ x ∈ ["CD2", "CE2", "CE3", "CZ2", "CZ3", "CH2"],
      x ∈ resTRP.atoms.map Atom.name := by
  constructor
  · exact (qualify_spec nsEmpty svd0 "p" 0 "1" ⟨"A", []⟩ ⟨"GLY", 1, []⟩ ssE
      ["CD2", "CE2", "CE3", "CZ2", "CZ3", "CH2"] Mode.main none none).1 (by decide)
  · exact ((qualify_spec nsEmpty svd0 "p" 0 "1" ⟨"A", []⟩ resTRP ssE
      ["CD2", "CE2", "CE3", "CZ2", "CZ3", "CH2"] Mode.main none none).2
      (by decide) (by decide)).mp (by decide)

/-- `detect_residue` once the filtered ring atoms and the length test are
known: the scan over the X candidates around the ring centroid. -/
lemma detect_residue_eval (ns : NS) (svdNormal : List Vec3 → Vec3)
    (pdb_name : String) (resolution : ℝ) (model_id : String)
    (chain : Chain) (residue : Residue) (ss_index : SSIndex)
    (target_atoms : List String) (mode : Mode)
    (filter_donor filter_donor_atom : Option (List String))
    (a0 : Atom) (rest : List Atom)
    (hfil : residue.atoms.filter (fun a => decide (a.name ∈ target_atoms)) = a0 :: rest)
    (hlen : (a0 :: rest).length = target_atoms.length) :
    detect_residue ns svdNormal pdb_name resolution model_id chain residue ss_index
        target_atoms mode filter_donor filter_donor_atom =
      ((ns (centroid ((a0 :: rest).map Atom.pos)) a0.altloc DIST_SEARCH_LIMIT).map
        (processX ns pdb_name resolution model_id chain.name residue mode ss_index
          filter_donor filter_donor_atom
          (centroid ((a0 :: rest).map Atom.pos))
          (svdNormal ((a0 :: rest).map Atom.pos))
          (((a0 :: rest).map Atom.b_iso).sum / (a0 :: rest).length))).flatten := by
  simp only [detect_residue, hfil]
  rw [if_neg (fun hne => hne hlen)]

/-- Neighbor oracle for the concrete scenario: the wide (6 A) query finds
the X donor, any other query finds the hydrogen. -/
def ns0 : NS := fun _ _ r => if r = DIST_SEARCH_LIMIT then [xCRAW] else [hCRAW]

def chainA : Chain := ⟨"A", [resDup]⟩

/-- The duplicated-name residue actually contributes a hit for the TRP
main definition in the concrete scenario. -/
lemma detect_residue_dup_ne :
    detect_residue ns0 svd0 "p" 0 "1" chainA resDup ssE
      ["CD2", "CE2", "CE3", "CZ2", "CZ3", "CH2"] Mode.main none none ≠ [] := by
  have hfil : resDup.atoms.filter
      (fun a => decide (a.name ∈ ["CD2", "CE2", "CE3", "CZ2", "CZ3", "CH2"])) =
      mkRingAtom "CD2" :: [mkRingAtom "CD2", mkRingAtom "CE2", mkRingAtom "CE3",
        mkRingAtom "CZ2", mkRingAtom "CZ3"] := by
    have h1 : resDup.atoms.filter
        (fun a => decide (a.name ∈ ["CD2", "CE2", "CE3", "CZ2", "CZ3", "CH2"])) =
        resDup.atoms :=
      List.filter_eq_self.mpr (by
        intro a ha
        simp only [resDup, List.mem_cons, List.not_mem_nil, or_false] at ha
        rcases ha with h | h | h | h | h | h <;> subst h <;> decide)
    rw [h1]
    rfl
  rw [detect_residue_eval ns0 svd0 "p" 0 "1" chainA resDup ssE _ Mode.main none none
    _ _ hfil (by decide)]
  have hcent : centroid ((mkRingAtom "CD2" :: [mkRingAtom "CD2", mkRingAtom "CE2",
      mkRingAtom "CE3", mkRingAtom "CZ2", mkRingAtom "CZ3"]).map Atom.pos) = c0 := by
    rw [centroid, c0]
    norm_num [mkRingAtom]
  rw [hcent]
  have hns : ns0 c0 (mkRingAtom "CD2").altloc DIST_SEARCH_LIMIT = [xCRAW] := by
    rw [ns0]
    simp
  rw [hns, show svd0 ((mkRingAtom "CD2" :: [mkRingAtom "CD2", mkRingAtom "CE2",
    mkRingAtom "CE3", mkRingAtom "CZ2", mkRingAtom "CZ3"]).map Atom.pos) = n0 from rfl]
  rw [List.map_cons, List.map_nil, List.flatten]
  simp only [List.flatten_nil, List.append_nil]
  simp only [processX]
  rw [if_neg (not_not_intro (by decide : xCRAW.atom.element ∈ TARGET_ELEMENTS_X)),
    if_neg (show ¬ rejectedBy none xCRAW.res_name from fun h => h),
    if_neg (show ¬ rejectedBy none xCRAW.atom.element from fun h => h),
    show xCRAW.atom.pos = xp0 from rfl, dist_xp0_c0,
    if_neg (by rw [DIST_HUDSON_MAX]; norm_num : ¬((1:ℝ) > DIST_HUDSON_MAX))]
  simp only [processHs, show xCRAW.atom.pos = xp0 from rfl]
  have hns2 : ns0 xp0 xCRAW.atom.altloc DIST_CUTOFF_H = [hCRAW] := by
    rw [ns0]
    rw [if_neg (by rw [DIST_CUTOFF_H, DIST_SEARCH_LIMIT]; norm_num)]
  rw [hns2]
  rw [List.filterMap_cons,
    evalPair_eq "p" 0 "1" chainA.name resDup Mode.main ssE c0 n0 _ 1 xCRAW hCRAW 0 180 0
      (by decide) xpcn_W xh_W theta_W,
    if_neg (by rw [plevin_W]; simp)]
  simp

/-- Counterexample for C3 as stated: `resDup` duplicates CD2 and lacks the
required CH2, yet it qualifies for the TRP main definition (the count test
passes) and actually contributes a hit. -/
theorem qualify_counterexample :
    RING_ATOMS "TRP" = some ["CD2", "CE2", "CE3", "CZ2", "CZ3", "CH2"] ∧
    (∀ a ∈ resDup.atoms, a.name ≠ "CH2") ∧
    detect_residue ns0 svd0 "p" 0 "1" chainA resDup ssE
      ["CD2", "CE2", "CE3", "CZ2", "CZ3", "CH2"] Mode.main none none ≠ [] := by
  refine ⟨by decide, ?_, detect_residue_dup_ne⟩
  intro a ha
  simp only [resDup, List.mem_cons, List.not_mem_nil, or_false] at ha
  rcases ha with h | h | h | h | h | h <;> subst h <;> decide

/-! ## C6: model selection and tagging -/

lemma evalPair_cases (pdb_name : String) (resolution : ℝ) (model_id chain_name : String)
    (residue : Residue) (mode : Mode) (ss_index : SSIndex) (pi_center pi_normal : Vec3)
    (pi_b_mean dist_x_pi : ℝ) (x_cra h_cra : CRA) :
    evalPair pdb_name resolution model_id chain_name residue mode ss_index
      pi_center pi_normal pi_b_mean x_cra dist_x_pi h_cra = none ∨
    (h_cra.atom.element ∈ TARGET_ELEMENTS_H ∧
     ∃ a b t, calculate_xpcn_angle x_cra.atom.pos pi_center pi_normal = some a ∧
       calculate_xh_picenter_angle pi_center x_cra.atom.pos h_cra.atom.pos = some b ∧
       calculate_hudson_theta pi_center x_cra.atom.pos h_cra.atom.pos pi_normal = some t) := by
  by_cases he : h_cra.atom.element ∉ TARGET_ELEMENTS_H
  · left
    simp only [evalPair]
    rw [if_pos he]
  · rcases hx : calculate_xpcn_angle x_cra.atom.pos pi_center pi_normal with _ | a <;>
      rcases hy : calculate_xh_picenter_angle pi_center x_cra.atom.pos h_cra.atom.pos
        with _ | b <;>
      rcases hz : calculate_hudson_theta pi_center x_cra.atom.pos h_cra.atom.pos pi_normal
        with _ | t <;>
      first
        | exact Or.inr ⟨not_not.mp he, ⟨a, b, t, rfl, rfl, rfl⟩⟩
        | (left
           simp only [evalPair]
           rw [if_neg he]
           simp [hx, hy, hz])

lemma evalPair_model (pdb_name : String) (resolution : ℝ) (model_id chain_name : String)
    (residue : Residue) (mode : Mode) (ss_index : SSIndex) (pi_center pi_normal : Vec3)
    (pi_b_mean dist_x_pi : ℝ) (x_cra h_cra : CRA) (r : Hit)
    (h : evalPair pdb_name resolution model_id chain_name residue mode ss_index
      pi_center pi_normal pi_b_mean x_cra dist_x_pi h_cra = some r) :
    r.model = model_id := by
  rcases evalPair_cases pdb_name resolution model_id chain_name residue mode ss_index
      pi_center pi_normal pi_b_mean dist_x_pi x_cra h_cra with hn | ⟨he, a, b, t, hx, hy, hz⟩
  · rw [hn] at h
    exact Option.noConfusion h
  · rw [evalPair_eq pdb_name resolution model_id chain_name residue mode ss_index
      pi_center pi_normal pi_b_mean dist_x_pi x_cra h_cra a b t he hx hy hz] at h
    by_cases h0 : plevinFlag dist_x_pi b a = 0 ∧
        (hudsonEval mode residue.name t dist_x_pi pi_normal pi_center x_cra.atom.pos).1 = 0
    · rw [if_pos h0] at h
      exact Option.noConfusion h
    · rw [if_neg h0, Option.some_inj] at h
      subst h
      rfl

lemma processHs_model (ns : NS) (pdb_name : String) (resolution : ℝ)
    (model_id chain_name : String) (residue : Residue) (mode : Mode) (ss_index : SSIndex)
    (pi_center pi_normal : Vec3) (pi_b_mean : ℝ) (x_cra : CRA) (dist_x_pi : ℝ) (r : Hit)
    (h : r ∈ processHs ns pdb_name resolution model_id chain_name residue mode ss_index
      pi_center pi_normal pi_b_mean x_cra dist_x_pi) :
    r.model = model_id := by
  simp only [processHs] at h
  obtain ⟨hc, _, heq⟩ := List.mem_filterMap.mp h
  exact evalPair_model pdb_name resolution model_id chain_name residue mode ss_index
    pi_center pi_normal pi_b_mean dist_x_pi x_cra hc r heq

lemma processX_model (ns : NS) (pdb_name : String) (resolution : ℝ)
    (model_id chain_name : String) (residue : Residue) (mode : Mode) (ss_index : SSIndex)
    (filter_donor filter_donor_atom : Option (List String))
    (pi_center pi_normal : Vec3) (pi_b_mean : ℝ) (x_cra : CRA) (r : Hit)
    (h : r ∈ processX ns pdb_name resolution model_id chain_name residue mode ss_index
      filter_donor filter_donor_atom pi_center pi_normal pi_b_mean x_cra) :
    r.model = model_id := by
  simp only [processX] at h
  split_ifs at h with h1 h2 h3 h4
  any_goals exact absurd h (List.not_mem_nil _)
  exact processHs_model ns pdb_name resolution model_id chain_name residue mode ss_index
    pi_center pi_normal pi_b_mean x_cra _ r h

lemma detect_residue_model (ns : NS) (svdNormal : List Vec3 → Vec3)
    (pdb_name : String) (resolution : ℝ) (model_id : String)
    (chain : Chain) (residue : Residue) (ss_index : SSIndex)
    (target_atoms : List String) (mode : Mode)
    (filter_donor filter_donor_atom : Option (List String)) (r : Hit)
    (h : r ∈ detect_residue ns svdNormal pdb_name resolution model_id chain residue ss_index
      target_atoms mode filter_donor filter_donor_atom) :
    r.model = model_id := by
  simp only [detect_residue] at h
  split_ifs at h with h1
  · exact absurd h (List.not_mem_nil _)
  · rcases hp : residue.atoms.filter (fun a => decide (a.name ∈ target_atoms))
      with _ | ⟨a0, rest⟩
    · rw [hp] at h
      exact absurd h (List.not_mem_nil _)
    · rw [hp] at h
      rw [List.mem_flatten] at h
      obtain ⟨l, hl, hr⟩ := h
      rw [List.mem_map] at hl
      obtain ⟨xc, _, rfl⟩ := hl
      exact processX_model ns pdb_name resolution model_id chain.name residue mode ss_index
        filter_donor filter_donor_atom _ _ _ xc r hr

lemma processResidue_model (ns : NS) (svdNormal : List Vec3 → Vec3)
    (pdb_name : String) (resolution : ℝ) (model_id : String)
    (chain : Chain) (residue : Residue) (ss_index : SSIndex)
    (filter_pi filter_donor filter_donor_atom : Option (List String)) (r : Hit)
    (h : r ∈ processResidue ns svdNormal pdb_name resolution model_id chain residue ss_index
      filter_pi filter_donor filter_donor_atom) :
    r.model = model_id := by
  simp only [processResidue] at h
  split_ifs at h with h1
  · exact absurd h (List.not_mem_nil _)
  · rw [List.mem_append] at h
    rcases h with h | h
    · rcases hr : RING_ATOMS residue.name with _ | tgt
      · rw [hr] at h
        exact absurd h (List.not_mem_nil _)
      · rw [hr] at h
        exact detect_residue_model ns svdNormal pdb_name resolution model_id chain residue
          ss_index tgt Mode.main filter_donor filter_donor_atom r h
    · rcases hr : TRP_A_ATOMS residue.name with _ | tgt
      · rw [hr] at h
        exact absurd h (List.not_mem_nil _)
      · rw [hr] at h
        exact detect_residue_model ns svdNormal pdb_name resolution model_id chain residue
          ss_index tgt Mode.trpA filter_donor filter_donor_atom r h

lemma processModel_model (ns_of : Model → NS) (svdNormal : List Vec3 → Vec3)
    (s : Structure) (pdb_name : String)
    (filter_pi filter_donor filter_donor_atom : Option (List String))
    (m : Model) (model_id : String) (r : Hit)
    (h : r ∈ processModel ns_of svdNormal s pdb_name
      filter_pi filter_donor filter_donor_atom m model_id) :
    r.model = model_id := by
  simp only [processModel] at h
  rw [List.mem_flatten] at h
  obtain ⟨l1, hl1, hr1⟩ := h
  rw [List.mem_map] at hl1
  obtain ⟨chain, _, rfl⟩ := hl1
  rw [List.mem_flatten] at hr1
  obtain ⟨l2, hl2, hr2⟩ := hr1
  rw [List.mem_map] at hl2
  obtain ⟨residue, _, rfl⟩ := hl2
  exact processResidue_model (ns_of m) svdNormal pdb_name s.resolution model_id chain
    residue (build_index s) filter_pi filter_donor filter_donor_atom r hr2

/-- **C6.** A non-negative integer model index that is out of range makes
detect return the empty list (no error); "all" processes every model of
the structure in order, each with its own identifier (provided name, else
the decimal string of the 1-based position); and every record produced
while processing a model carries that model's identifier. -/
theorem model_selection_spec (ns_of : Model → NS) (svdNormal : List Vec3 → Vec3)
    (s : Structure) (pdb_name : String)
    (filter_pi filter_donor filter_donor_atom : Option (List String)) (n : Int) :
    (0 ≤ n → (s.models.length : Int) ≤ n →
      detect_interactions_in_structure ns_of svdNormal s pdb_name
        filter_pi filter_donor filter_donor_atom (ModelMode.idx n) = []) ∧
    (detect_interactions_in_structure ns_of svdNormal s pdb_name
        filter_pi filter_donor filter_donor_atom ModelMode.all =
      (s.models.enum.map (fun p =>
        processModel ns_of svdNormal s pdb_name filter_pi filter_donor filter_donor_atom
          p.2 (modelIdOf p.2 p.1))).flatten) ∧
    (∀ (m : Model) (model_id : String) (r : Hit),
      r ∈ processModel ns_of svdNormal s pdb_name filter_pi filter_donor filter_donor_atom
        m model_id → r.model = model_id) := by
  refine ⟨?_, ?_, ?_⟩
  · intro h0 hge
    rw [detect_interactions_in_structure]
    by_cases hlen : s.models.length = 0
    · rw [if_pos hlen]
    · rw [if_neg hlen]
      have hsel : selectModels s (ModelMode.idx n) = [] := by
        simp only [selectModels]
        rw [dif_neg (by omega)]
      rw [hsel]
      rfl
  · rw [detect_interactions_in_structure]
    by_cases hlen : s.models.length = 0
    · rw [if_pos hlen, List.length_eq_zero.mp hlen]
      rfl
    · rw [if_neg hlen]
      simp only [selectModels, List.map_map]
      rfl
  · intro m model_id r h
    exact processModel_model ns_of svdNormal s pdb_name
      filter_pi filter_donor filter_donor_atom m model_id r h

def m0 : Model := ⟨some "1", [chainA]⟩

def S0 : Structure := ⟨[m0], 0, [], []⟩

lemma processModel_S0 :
    processModel (fun _ => ns0) svd0 S0 "p" none none none m0 "1" =
      detect_residue ns0 svd0 "p" 0 "1" chainA resDup ssE
        ["CD2", "CE2", "CE3", "CZ2", "CZ3", "CH2"] Mode.main none none ++
      detect_residue ns0 svd0 "p" 0 "1" chainA resDup ssE
        ["CD1", "CD2", "NE1", "CG", "CE2"] Mode.trpA none none := by
  simp only [processModel]
  rw [show build_index S0 = ssE from rfl, show m0.chains = [chainA] from rfl,
    List.map_cons, List.map_nil, show chainA.residues = [resDup] from rfl,
    List.map_cons, List.map_nil]
  simp only [List.flatten_cons, List.flatten_nil, List.append_nil]
  simp only [processResidue]
  rw [if_neg (show ¬ rejectedBy none resDup.name from fun h => h),
    show RING_ATOMS resDup.name =
      some ["CD2", "CE2", "CE3", "CZ2", "CZ3", "CH2"] from by decide,
    show TRP_A_ATOMS resDup.name =
      some ["CD1", "CD2", "NE1", "CG", "CE2"] from by decide]
  rfl

lemma processModel_S0_ne :
    processModel (fun _ => ns0) svd0 S0 "p" none none none m0 "1" ≠ [] := by
  rw [processModel_S0]
  intro h
  rcases List.append_eq_nil.mp h with ⟨h1, _⟩
  exact detect_residue_dup_ne h1

/-- Witness for C6: index 5 is out of range for the one-model structure
and gives an empty result; and a concrete record produced while
processing its model carries the model identifier. -/
theorem model_selection_spec_witness :
    detect_interactions_in_structure (fun _ => ns0) svd0 S0 "p" none none none
      (ModelMode.idx 5) = [] ∧
    ∃ r, r ∈ processModel (fun _ => ns0) svd0 S0 "p" none none none m0 "1" ∧
      r.model = "1" := by
  constructor
  · exact (model_selection_spec (fun _ => ns0) svd0 S0 "p" none none none 5).1
      (by norm_num) (by rw [show S0.models.length = 1 from rfl]; norm_num)
  · obtain ⟨r, hr⟩ := List.exists_mem_of_ne_nil _ processModel_S0_ne
    exact ⟨r, hr, (model_selection_spec (fun _ => ns0) svd0 S0 "p" none none none 5).2.2
      m0 "1" r hr⟩

end Xpid
